import Mathlib

/-
Verification of PHE_FlipOptimizer (src/main.py) against its specification.

The module embeds the single calculation function `tool_phe_flip`, the
retry-on-parse-failure input helper `get_user_input`, and the prompt order
of `main` as Lean definitions over the real numbers, and proves or refutes
the specification's claims about them.

Python's `math.asin` raises ValueError outside [-1, 1] and the division
`opposite / hypotenuse` raises ZeroDivisionError when the denominator is
zero; these two fallible points are made explicit guards, so the embedded
function returns `Except PyError FlipResult`.
-/

/-- Errors the Python function can raise: ZeroDivisionError from
`opposite / hypotenuse`, ValueError from `math.asin` outside [-1, 1]. -/
inductive PyError where
  | zeroDivisionError
  | valueError
deriving DecidableEq

/-- Conversion from radians to degrees, as Python `math.degrees`. -/
noncomputable def math.degrees (x : ℝ) : ℝ := x * 180 / Real.pi

/-- Conversion from degrees to radians, as Python `math.radians`. -/
noncomputable def math.radians (x : ℝ) : ℝ := x * Real.pi / 180

/-- The dictionary returned by `tool_phe_flip`, with its seven keys. -/
structure FlipResult where
  offset : ℝ
  angle : ℝ
  flip_angle : ℝ
  draft_angle : ℝ
  length : ℝ
  width : ℝ
  fillet_radius : ℝ

/-- Embedding of `tool_phe_flip` from src/main.py.  The two guards make the
implicit failure points of the Python code explicit: division by a zero
`hypotenuse` (ZeroDivisionError) and an `asin` argument outside [-1, 1]
(ValueError).  Otherwise the sequence of assignments is kept verbatim. -/
noncomputable def tool_phe_flip (spacing_a spacing_b length width thinkness fillet_radius : ℝ) :
    Except PyError FlipResult :=
  let opposite := 2 * thinkness
  let hypotenuse := spacing_a + spacing_b + 2 * thinkness
  if hypotenuse = 0 then .error .zeroDivisionError
  else
    let ratio := opposite / hypotenuse
    if 1 < |ratio| then .error .valueError
    else
      let angle := math.degrees (Real.arcsin ratio)
      let hypotenuse_min := spacing_a + thinkness - hypotenuse / 2
      let offset := hypotenuse_min * Real.tan (math.radians angle)
      let flip_angle := 90 + angle
      let draft_angle := angle
      let length := length - 2 * offset
      let width := width - 2 * offset
      let fillet_radius := fillet_radius - offset
      .ok { offset := offset, angle := angle, flip_angle := flip_angle,
            draft_angle := draft_angle, length := length, width := width,
            fillet_radius := fillet_radius }

/-- The angle computed by `tool_phe_flip` (degrees of the arcsine). -/
noncomputable def angle_of (a b t : ℝ) : ℝ :=
  math.degrees (Real.arcsin (2 * t / (a + b + 2 * t)))

/-- The offset computed by `tool_phe_flip`: the code uses plain `spacing_a`
in `hypotenuse_min`, not `max(spacing_a, spacing_b)`. -/
noncomputable def offset_of (a b t : ℝ) : ℝ :=
  (a + t - (a + b + 2 * t) / 2) * Real.tan (math.radians (angle_of a b t))

/-- The full successful result of `tool_phe_flip`, field by field. -/
noncomputable def result_of (a b l w t fr : ℝ) : FlipResult :=
  { offset := offset_of a b t
    angle := angle_of a b t
    flip_angle := 90 + angle_of a b t
    draft_angle := angle_of a b t
    length := l - 2 * offset_of a b t
    width := w - 2 * offset_of a b t
    fillet_radius := fr - offset_of a b t }

/-- Domain precondition of the computation: the hypotenuse is nonzero and
the sine argument lies in [-1, 1]. -/
def valid (a b t : ℝ) : Prop :=
  a + b + 2 * t ≠ 0 ∧ |2 * t / (a + b + 2 * t)| ≤ 1

theorem tool_phe_flip_eq_ok (a b l w t fr : ℝ) (h0 : a + b + 2 * t ≠ 0)
    (h1 : |2 * t / (a + b + 2 * t)| ≤ 1) :
    tool_phe_flip a b l w t fr = .ok (result_of a b l w t fr) := by
  simp only [tool_phe_flip]
  rw [if_neg h0, if_neg (not_lt.mpr h1)]
  rfl

theorem tool_phe_flip_ok_iff (a b l w t fr : ℝ) (r : FlipResult) :
    tool_phe_flip a b l w t fr = .ok r ↔
      (valid a b t ∧ r = result_of a b l w t fr) := by
  constructor
  · intro h
    by_cases h0 : a + b + 2 * t = 0
    · simp only [tool_phe_flip, if_pos h0] at h
      exact absurd h (by simp)
    · by_cases h1 : 1 < |2 * t / (a + b + 2 * t)|
      · simp only [tool_phe_flip, if_neg h0, if_pos h1] at h
        exact absurd h (by simp)
      · rw [tool_phe_flip_eq_ok a b l w t fr h0 (not_lt.mp h1)] at h
        exact ⟨⟨h0, not_lt.mp h1⟩, (Except.ok.inj h).symm⟩
  · rintro ⟨⟨h0, h1⟩, rfl⟩
    exact tool_phe_flip_eq_ok a b l w t fr h0 h1

theorem math.radians_degrees (x : ℝ) : math.radians (math.degrees x) = x := by
  unfold math.radians math.degrees
  field_simp

theorem tan_arcsin_pos {x : ℝ} (h0 : 0 < x) (h1 : x < 1) :
    0 < Real.tan (Real.arcsin x) :=
  Real.tan_pos_of_pos_of_lt_pi_div_two (Real.arcsin_pos.mpr h0)
    (Real.arcsin_lt_pi_div_two.mpr h1)

theorem offset_of_eq (a b t : ℝ) :
    offset_of a b t =
      (a - b) / 2 * Real.tan (Real.arcsin (2 * t / (a + b + 2 * t))) := by
  unfold offset_of angle_of
  rw [math.radians_degrees]
  congr 1
  ring

/-- Modelled from the spec: step 4 of the canonical algorithm,
`hypotenuseMin = max(spacingA, spacingB) + thickness - hypotenuse / 2`,
followed by `offset = hypotenuseMin * tan(radians(angle))`.  Stated from the
spec's words (the `max` form the spec adopts as canonical) for comparison
with the code's `offset_of`. -/
noncomputable def spec_offset_max (a b t : ℝ) : ℝ :=
  (max a b + t - (a + b + 2 * t) / 2) * Real.tan (math.radians (angle_of a b t))

theorem valid_1_3_1 : valid 1 3 1 := by
  constructor
  · norm_num
  · rw [abs_le]; norm_num

theorem offset_at_1_3_1 :
    offset_of 1 3 1 = -Real.tan (Real.arcsin (1 / 3)) := by
  rw [offset_of_eq]
  norm_num

/-- C1: the claim states the code's offset uses
`max(spacing_a, spacing_b)` in `hypotenuse_min`; the code uses plain
`spacing_a`, and at spacing_a = 1, spacing_b = 3, thinkness = 1 the two
formulas give offsets of opposite sign, so the claim is false. -/
theorem C1_counterexample :
    (tool_phe_flip 1 3 100 50 1 10).map FlipResult.offset ≠
      Except.ok (spec_offset_max 1 3 1) := by
  rw [tool_phe_flip_eq_ok 1 3 100 50 1 10 valid_1_3_1.1 valid_1_3_1.2]
  simp only [Except.map, result_of]
  intro h
  have h2 := Except.ok.inj h
  have hmax : max (1 : ℝ) 3 = 3 := by norm_num
  rw [offset_at_1_3_1] at h2
  unfold spec_offset_max angle_of at h2
  rw [math.radians_degrees, hmax] at h2
  norm_num at h2
  have hT : 0 < Real.tan (Real.arcsin (1 / 3)) :=
    tan_arcsin_pos (by norm_num) (by norm_num)
  linarith

/-- C1 (amended): for every valid input the offset equals
`(spacing_a + thinkness - hypotenuse / 2) * tan(radians(angle))` — the
asymmetric plain-`spacing_a` form, not `max(spacing_a, spacing_b)`. -/
theorem C1_offset_formula (a b l w t fr : ℝ) (h : valid a b t) :
    ∃ r, tool_phe_flip a b l w t fr = .ok r ∧
      r.offset = (a + t - (a + b + 2 * t) / 2) *
        Real.tan (math.radians (math.degrees
          (Real.arcsin (2 * t / (a + b + 2 * t))))) :=
  ⟨result_of a b l w t fr, tool_phe_flip_eq_ok a b l w t fr h.1 h.2, rfl⟩

theorem C1_offset_formula_witness :
    valid 2 2 0.5 ∧
      ∃ r, tool_phe_flip 2 2 100 50 0.5 10 = .ok r ∧
        r.offset = (2 + 0.5 - (2 + 2 + 2 * 0.5) / 2) *
          Real.tan (math.radians (math.degrees
            (Real.arcsin (2 * 0.5 / (2 + 2 + 2 * 0.5))))) :=
  ⟨⟨by norm_num, by rw [abs_le]; norm_num⟩,
    C1_offset_formula 2 2 100 50 0.5 10 ⟨by norm_num, by rw [abs_le]; norm_num⟩⟩

theorem valid_swap {a b t : ℝ} (h : valid a b t) : valid b a t := by
  have hc : b + a + 2 * t = a + b + 2 * t := by ring
  exact ⟨by rw [hc]; exact h.1, by rw [hc]; exact h.2⟩

theorem angle_of_swap (a b t : ℝ) : angle_of b a t = angle_of a b t := by
  unfold angle_of
  rw [show b + a + 2 * t = a + b + 2 * t from by ring]

theorem offset_of_swap (a b t : ℝ) : offset_of b a t = -offset_of a b t := by
  rw [offset_of_eq, offset_of_eq,
    show b + a + 2 * t = a + b + 2 * t from by ring]
  ring

/-- C2: the claim states that swapping spacing_a and spacing_b leaves both
offset and angle unchanged; at spacing_a = 1, spacing_b = 3, thinkness = 1
the two orders give offsets of opposite nonzero sign, so the claim is
false (the angle is indeed unchanged, but the offset is negated). -/
theorem C2_counterexample :
    (tool_phe_flip 1 3 100 50 1 10).map FlipResult.offset ≠
      (tool_phe_flip 3 1 100 50 1 10).map FlipResult.offset := by
  rw [tool_phe_flip_eq_ok 1 3 100 50 1 10 valid_1_3_1.1 valid_1_3_1.2,
    tool_phe_flip_eq_ok 3 1 100 50 1 10 (valid_swap valid_1_3_1).1
      (valid_swap valid_1_3_1).2]
  simp only [Except.map, result_of]
  intro h
  have h2 := Except.ok.inj h
  rw [offset_at_1_3_1, offset_of_swap, offset_at_1_3_1] at h2
  have hT : 0 < Real.tan (Real.arcsin (1 / 3)) :=
    tan_arcsin_pos (by norm_num) (by norm_num)
  linarith

/-- C2 (amended): swapping spacing_a and spacing_b leaves angle, flip_angle
and draft_angle unchanged but negates the offset. -/
theorem C2_swap (a b l w t fr : ℝ) (h : valid a b t) :
    ∃ r s, tool_phe_flip a b l w t fr = .ok r ∧
      tool_phe_flip b a l w t fr = .ok s ∧
      s.angle = r.angle ∧ s.flip_angle = r.flip_angle ∧
      s.draft_angle = r.draft_angle ∧ s.offset = -r.offset :=
  ⟨result_of a b l w t fr, result_of b a l w t fr,
    tool_phe_flip_eq_ok a b l w t fr h.1 h.2,
    tool_phe_flip_eq_ok b a l w t fr (valid_swap h).1 (valid_swap h).2,
    by simp only [result_of]; rw [angle_of_swap],
    by simp only [result_of]; rw [angle_of_swap],
    by simp only [result_of]; rw [angle_of_swap],
    by simp only [result_of]; rw [offset_of_swap]⟩

theorem C2_swap_witness :
    valid 1 3 1 ∧
      ∃ r s, tool_phe_flip 1 3 100 50 1 10 = .ok r ∧
        tool_phe_flip 3 1 100 50 1 10 = .ok s ∧
        s.angle = r.angle ∧ s.flip_angle = r.flip_angle ∧
        s.draft_angle = r.draft_angle ∧ s.offset = -r.offset :=
  ⟨valid_1_3_1, C2_swap 1 3 100 50 1 10 valid_1_3_1⟩

/-- C3: the computation fails with an error exactly when the sine argument
`2 * thinkness / (spacing_a + spacing_b + 2 * thinkness)` lies outside
[-1, 1] or the hypotenuse is zero (division by zero); on every input
satisfying the domain precondition it returns a result normally. -/
theorem C3_domain (a b l w t fr : ℝ) :
    ((∃ r, tool_phe_flip a b l w t fr = .ok r) ↔ valid a b t) ∧
      ((∃ e, tool_phe_flip a b l w t fr = .error e) ↔ ¬valid a b t) := by
  have hok : (∃ r, tool_phe_flip a b l w t fr = .ok r) ↔ valid a b t := by
    constructor
    · rintro ⟨r, hr⟩
      exact ((tool_phe_flip_ok_iff a b l w t fr r).mp hr).1
    · intro h
      exact ⟨result_of a b l w t fr, tool_phe_flip_eq_ok a b l w t fr h.1 h.2⟩
  refine ⟨hok, ?_⟩
  constructor
  · rintro ⟨e, he⟩ hv
    obtain ⟨r, hr⟩ := hok.mpr hv
    rw [he] at hr
    exact absurd hr (by simp)
  · intro hv
    rcases he : tool_phe_flip a b l w t fr with e | r
    · exact ⟨e, rfl⟩
    · exact absurd (hok.mp ⟨r, he⟩) hv

theorem arcsin_fifth_gt : (0.2 : ℝ) < Real.arcsin 0.2 := by
  have h0 : (0 : ℝ) < Real.arcsin 0.2 := Real.arcsin_pos.mpr (by norm_num)
  have h := Real.sin_lt h0
  rwa [Real.sin_arcsin (by norm_num) (by norm_num)] at h

theorem arcsin_fifth_lt : Real.arcsin 0.2 < 0.2035 := by
  have hs : (0.2 : ℝ) < Real.sin 0.2035 := by
    have h := Real.sin_gt_sub_cube (show (0 : ℝ) < 0.2035 by norm_num)
      (show (0.2035 : ℝ) ≤ 1 by norm_num)
    nlinarith
  have hmono := Real.strictMonoOn_arcsin
    (Set.mem_Icc.mpr ⟨by norm_num, by norm_num⟩)
    (Set.mem_Icc.mpr ⟨by linarith [Real.neg_one_le_sin 0.2035],
      Real.sin_le_one 0.2035⟩) hs
  have hpi : (3.141592 : ℝ) < Real.pi := Real.pi_gt_d6
  rwa [Real.arcsin_sin (by linarith) (by linarith)] at hmono

/-- C4: for every valid input the returned angle equals
`degrees(asin(2 * thinkness / (spacing_a + spacing_b + 2 * thinkness)))`;
at spacing_a = 2, spacing_b = 2, thinkness = 0.5 the hypotenuse is 5, the
opposite is 1, and the angle equals `degrees(asin(0.2))`, which lies
strictly between 11.45 and 11.66 degrees. -/
theorem C4_angle :
    (∀ a b l w t fr : ℝ, valid a b t →
      ∃ r, tool_phe_flip a b l w t fr = .ok r ∧
        r.angle = math.degrees (Real.arcsin (2 * t / (a + b + 2 * t)))) ∧
    (∃ r, tool_phe_flip 2 2 100 50 0.5 10 = .ok r ∧
      (2 : ℝ) + 2 + 2 * 0.5 = 5 ∧ 2 * (0.5 : ℝ) = 1 ∧
      r.angle = math.degrees (Real.arcsin 0.2) ∧
      11.45 < r.angle ∧ r.angle < 11.66) := by
  have hval : valid 2 2 0.5 := ⟨by norm_num, by rw [abs_le]; norm_num⟩
  have hang : angle_of 2 2 0.5 = math.degrees (Real.arcsin 0.2) := by
    unfold angle_of
    norm_num
  have hpilo : (3.141592 : ℝ) < Real.pi := Real.pi_gt_d6
  have hpihi : Real.pi < 3.141593 := Real.pi_lt_d6
  have hlo : (11.45 : ℝ) < math.degrees (Real.arcsin 0.2) := by
    unfold math.degrees
    rw [lt_div_iff₀ Real.pi_pos]
    nlinarith [arcsin_fifth_gt]
  have hhi : math.degrees (Real.arcsin 0.2) < 11.66 := by
    unfold math.degrees
    rw [div_lt_iff₀ Real.pi_pos]
    nlinarith [arcsin_fifth_lt, arcsin_fifth_gt]
  refine ⟨fun a b l w t fr h =>
    ⟨result_of a b l w t fr, tool_phe_flip_eq_ok a b l w t fr h.1 h.2, rfl⟩,
    result_of 2 2 100 50 0.5 10,
    tool_phe_flip_eq_ok 2 2 100 50 0.5 10 hval.1 hval.2,
    by norm_num, by norm_num, ?_, ?_, ?_⟩
  · show angle_of 2 2 0.5 = _
    exact hang
  · show 11.45 < angle_of 2 2 0.5
    rw [hang]; exact hlo
  · show angle_of 2 2 0.5 < 11.66
    rw [hang]; exact hhi

theorem C4_angle_witness :
    valid 2 2 0.5 ∧
      ∃ r, tool_phe_flip 2 2 100 50 0.5 10 = .ok r ∧
        r.angle = math.degrees
          (Real.arcsin (2 * 0.5 / (2 + 2 + 2 * 0.5))) :=
  ⟨⟨by norm_num, by rw [abs_le]; norm_num⟩,
    C4_angle.1 2 2 100 50 0.5 10 ⟨by norm_num, by rw [abs_le]; norm_num⟩⟩

/-- C5: for every valid input the adjusted dimensions satisfy exactly
`length = input length - 2 * offset`, `width = input width - 2 * offset`
and `fillet_radius = input fillet_radius - offset`. -/
theorem C5_adjusted (a b l w t fr : ℝ) (h : valid a b t) :
    ∃ r, tool_phe_flip a b l w t fr = .ok r ∧
      r.length = l - 2 * r.offset ∧ r.width = w - 2 * r.offset ∧
      r.fillet_radius = fr - r.offset :=
  ⟨result_of a b l w t fr, tool_phe_flip_eq_ok a b l w t fr h.1 h.2,
    rfl, rfl, rfl⟩

theorem C5_adjusted_witness :
    valid 2 2 0.5 ∧
      ∃ r, tool_phe_flip 2 2 100 50 0.5 10 = .ok r ∧
        r.length = 100 - 2 * r.offset ∧ r.width = 50 - 2 * r.offset ∧
        r.fillet_radius = 10 - r.offset :=
  ⟨⟨by norm_num, by rw [abs_le]; norm_num⟩,
    C5_adjusted 2 2 100 50 0.5 10 ⟨by norm_num, by rw [abs_le]; norm_num⟩⟩

/-- C6: for every valid input the returned flip_angle equals exactly
`90 + angle` and the returned draft_angle equals exactly `angle`. -/
theorem C6_angles (a b l w t fr : ℝ) (h : valid a b t) :
    ∃ r, tool_phe_flip a b l w t fr = .ok r ∧
      r.flip_angle = 90 + r.angle ∧ r.draft_angle = r.angle :=
  ⟨result_of a b l w t fr, tool_phe_flip_eq_ok a b l w t fr h.1 h.2,
    rfl, rfl⟩

theorem C6_angles_witness :
    valid 2 2 0.5 ∧
      ∃ r, tool_phe_flip 2 2 100 50 0.5 10 = .ok r ∧
        r.flip_angle = 90 + r.angle ∧ r.draft_angle = r.angle :=
  ⟨⟨by norm_num, by rw [abs_le]; norm_num⟩,
    C6_angles 2 2 100 50 0.5 10 ⟨by norm_num, by rw [abs_le]; norm_num⟩⟩

/-- C7: the computation is deterministic — two calls with identical
arguments yield identical results.  In this embedding `tool_phe_flip` is a
pure function of its six arguments alone, mirroring the Python function,
which reads no state besides its parameters and performs no I/O. -/
theorem C7_deterministic (a b l w t fr a2 b2 l2 w2 t2 fr2 : ℝ)
    (ha : a = a2) (hb : b = b2) (hl : l = l2) (hw : w = w2)
    (ht : t = t2) (hfr : fr = fr2) :
    tool_phe_flip a b l w t fr = tool_phe_flip a2 b2 l2 w2 t2 fr2 := by
  rw [ha, hb, hl, hw, ht, hfr]

theorem C7_deterministic_witness :
    tool_phe_flip 1 2 3 4 5 6 = tool_phe_flip 1 2 3 4 5 6 :=
  C7_deterministic 1 2 3 4 5 6 1 2 3 4 5 6 rfl rfl rfl rfl rfl rfl

/-- Embedding of `get_user_input` from src/main.py: the parse attempt
`value_type(user_input)` is an abstract parse function `p`; the while-True
loop re-prompts after each failed parse, consuming the stream of user
entries one at a time, and returns the first value that parses.  `none`
means the finite stream of entries was exhausted without a parse success
(the Python loop would still be waiting for input). -/
def get_user_input {α : Type} (p : String → Option α) : List String → Option α
  | [] => none
  | s :: rest =>
    match p s with
    | some v => some v
    | none => get_user_input p rest

/-- The order in which `main` collects the six parameters, read off the
construction order of its `params` dictionary in src/main.py. -/
def main_param_order : List String :=
  ["spacing_a", "spacing_b", "length", "width", "thinkness", "fillet_radius"]

/-- C8: the claim states the CLI prompts in the order A-side spacing,
B-side spacing, thickness, length, width, fillet radius; the code prompts
for length and width before thickness, so the claimed order is false. -/
theorem C8_counterexample :
    main_param_order ≠
      ["spacing_a", "spacing_b", "thinkness", "length", "width",
        "fillet_radius"] := by
  decide

/-- C8 (amended): the CLI prompts for the six inputs in the order A-side
spacing, B-side spacing, length, width, thickness, fillet radius; and on
each prompt every entry that fails to parse causes a re-prompt, until an
entry parses, which is then returned. -/
theorem C8_prompt_retry :
    main_param_order =
      ["spacing_a", "spacing_b", "length", "width", "thinkness",
        "fillet_radius"] ∧
    ∀ (α : Type) (p : String → Option α) (junk : List String) (s : String)
      (rest : List String) (v : α),
      (∀ j ∈ junk, p j = none) → p s = some v →
      get_user_input p (junk ++ s :: rest) = some v := by
  refine ⟨rfl, ?_⟩
  intro α p junk s rest v hj hs
  induction junk with
  | nil =>
    simp only [List.nil_append, get_user_input, hs]
  | cons x xs ih =>
    have hx : p x = none := hj x (by simp)
    simp only [List.cons_append, get_user_input, hx]
    exact ih (fun j hjm => hj j (by simp [hjm]))

theorem C8_prompt_retry_witness :
    get_user_input (fun s => if s = "3.5" then some (1 : Nat) else none)
      ["abc", "3.5", "7"] = some 1 :=
  C8_prompt_retry.2 Nat (fun s => if s = "3.5" then some (1 : Nat) else none)
    ["abc"] "3.5" ["7"] 1 (by decide) (by decide)

/-- C9: `hypotenuse_min` simplifies to `(spacing_a - spacing_b) / 2`, so
with equal spacings the offset is exactly 0 and length, width and
fillet_radius are returned unchanged. -/
theorem C9_equal_spacing (a l w t fr : ℝ) (h : valid a a t) :
    (∀ b : ℝ, a + t - (a + b + 2 * t) / 2 = (a - b) / 2) ∧
    ∃ r, tool_phe_flip a a l w t fr = .ok r ∧
      r.offset = 0 ∧ r.length = l ∧ r.width = w ∧ r.fillet_radius = fr := by
  have hz : offset_of a a t = 0 := by
    rw [offset_of_eq]; ring
  refine ⟨fun b => by ring,
    result_of a a l w t fr, tool_phe_flip_eq_ok a a l w t fr h.1 h.2,
    ?_, ?_, ?_, ?_⟩
  · exact hz
  · show l - 2 * offset_of a a t = l
    rw [hz]; ring
  · show w - 2 * offset_of a a t = w
    rw [hz]; ring
  · show fr - offset_of a a t = fr
    rw [hz]; ring

theorem C9_equal_spacing_witness :
    valid 2 2 0.5 ∧
      ((∀ b : ℝ, 2 + 0.5 - (2 + b + 2 * 0.5) / 2 = (2 - b) / 2) ∧
        ∃ r, tool_phe_flip 2 2 100 50 0.5 10 = .ok r ∧
          r.offset = 0 ∧ r.length = 100 ∧ r.width = 50 ∧
          r.fillet_radius = 10) :=
  ⟨⟨by norm_num, by rw [abs_le]; norm_num⟩,
    C9_equal_spacing 2 100 50 0.5 10 ⟨by norm_num, by rw [abs_le]; norm_num⟩⟩

theorem offset_of_sign (a b t : ℝ) (ha : 0 < a) (hb : 0 < b) (ht : 0 < t) :
    (0 < offset_of a b t ↔ b < a) ∧ (offset_of a b t < 0 ↔ a < b) ∧
      (offset_of a b t = 0 ↔ a = b) := by
  have hhyp : 0 < a + b + 2 * t := by linarith
  have hrpos : 0 < 2 * t / (a + b + 2 * t) := div_pos (by linarith) hhyp
  have hrlt : 2 * t / (a + b + 2 * t) < 1 := (div_lt_one hhyp).mpr (by linarith)
  have hT : 0 < Real.tan (Real.arcsin (2 * t / (a + b + 2 * t))) :=
    tan_arcsin_pos hrpos hrlt
  rw [offset_of_eq]
  refine ⟨⟨fun hpos => ?_, fun hba => ?_⟩, ⟨fun hneg => ?_, fun hab => ?_⟩,
    ⟨fun hzero => ?_, fun hab => ?_⟩⟩
  · by_contra hba
    push_neg at hba
    nlinarith
  · nlinarith
  · by_contra hab
    push_neg at hab
    nlinarith
  · nlinarith
  · rcases mul_eq_zero.mp hzero with hd | hTz
    · linarith
    · exact absurd hTz (ne_of_gt hT)
  · rw [hab]
    ring

/-- C10: with all six arguments positive the computation succeeds, the
sign of the offset equals the sign of `spacing_a - spacing_b`, and when
`spacing_a < spacing_b` the offset is negative so the returned length and
width strictly exceed the inputs. -/
theorem C10_offset_sign (a b l w t fr : ℝ)
    (ha : 0 < a) (hb : 0 < b) (hl : 0 < l) (hw : 0 < w) (ht : 0 < t)
    (hfr : 0 < fr) :
    ∃ r, tool_phe_flip a b l w t fr = .ok r ∧
      (0 < r.offset ↔ b < a) ∧ (r.offset < 0 ↔ a < b) ∧
      (r.offset = 0 ↔ a = b) ∧
      (a < b → l < r.length ∧ w < r.width) := by
  have hhyp : 0 < a + b + 2 * t := by linarith
  have h0 : a + b + 2 * t ≠ 0 := ne_of_gt hhyp
  have hrpos : 0 < 2 * t / (a + b + 2 * t) := div_pos (by linarith) hhyp
  have hrlt : 2 * t / (a + b + 2 * t) < 1 := (div_lt_one hhyp).mpr (by linarith)
  have h1 : |2 * t / (a + b + 2 * t)| ≤ 1 := by
    rw [abs_of_pos hrpos]
    exact le_of_lt hrlt
  obtain ⟨hsg1, hsg2, hsg3⟩ := offset_of_sign a b t ha hb ht
  refine ⟨result_of a b l w t fr, tool_phe_flip_eq_ok a b l w t fr h0 h1,
    hsg1, hsg2, hsg3, fun hab => ?_⟩
  have hneg : offset_of a b t < 0 := hsg2.mpr hab
  constructor
  · show l < l - 2 * offset_of a b t
    linarith
  · show w < w - 2 * offset_of a b t
    linarith

theorem C10_offset_sign_witness :
    (0 : ℝ) < 1 ∧
      ∃ r, tool_phe_flip 1 3 100 50 1 10 = .ok r ∧
        (0 < r.offset ↔ (3 : ℝ) < 1) ∧ (r.offset < 0 ↔ (1 : ℝ) < 3) ∧
        (r.offset = 0 ↔ (1 : ℝ) = 3) ∧
        ((1 : ℝ) < 3 → 100 < r.length ∧ 50 < r.width) :=
  ⟨by norm_num,
    C10_offset_sign 1 3 100 50 1 10 (by norm_num) (by norm_num) (by norm_num)
      (by norm_num) (by norm_num) (by norm_num)⟩
